import Mathlib

/-!
# Verification development for `ssm-rotation-sdk-golang`

Shallow embedding of `lib/ssm/requester.go` and
`lib/db/dynamicSecretRotationDbConn.go`.

* Go `string` values are Lean `String`s, `len(s)` is `String.utf8ByteSize`.
* A Go `(value, error)` result is a pair whose second component is
  `Option String` (`none` is the `nil` error, `some msg` an error with text `msg`).
* The external collaborators (the secret service SDK, `database/sql`,
  `encoding/json`) are not part of the package: the result of each of their calls is
  an input of the embedded function (`SecretResp`, `CallOracle`, `jsonUnmarshal`).
* `log.Fatal` ends the process (`os.Exit(1)`), which is the `Outcome.exit` result;
  a nil dereference or a failed type assertion is `Outcome.panic`.
  Plain log output (`log.Println`, `log.Printf`) is not recorded.
-/

namespace SsmRotation

/-! ## Results of a call -/

/-- How a call ends: it returns a value, the process exits through `log.Fatal`,
or the goroutine panics. -/
inductive Outcome (α : Type) where
  | ret (a : α)
  | exit
  | panic
deriving DecidableEq

/-! ## `fmt.Sprintf`, for the verbs this package uses -/

/-- An argument of `fmt.Sprintf`: a `string` (for `%s`) or a `uint64` (for `%d`). -/
inductive Arg where
  | str (s : String)
  | uint (n : Nat)

/-- Interpretation of a format string over its argument list, on character lists:
`%s` prints the next string argument verbatim and `%d` the next unsigned integer in
decimal.  Every other character of the format is copied. -/
def sprintfChars : List Char → List Arg → List Char
  | [], _ => []
  | [c], _ => [c]
  | c :: v :: fmt, args =>
    if c = '%' ∧ v = 's' then
      match args with
      | Arg.str s :: rest => s.data ++ sprintfChars fmt rest
      | _ => c :: sprintfChars (v :: fmt) args
    else if c = '%' ∧ v = 'd' then
      match args with
      | Arg.uint n :: rest => (Nat.repr n).data ++ sprintfChars fmt rest
      | _ => c :: sprintfChars (v :: fmt) args
    else c :: sprintfChars (v :: fmt) args

/-- The call `fmt.Sprintf(format, args...)`. -/
def Sprintf (format : String) (args : List Arg) : String :=
  ⟨sprintfChars format.data args⟩

/-! ## `lib/ssm/requester.go` -/

structure DbAccount where
  UserName : String
  Password : String
deriving DecidableEq

structure SsmAccount where
  SecretId : String
  SecretKey : String
  Url : String
  Region : String
deriving DecidableEq

/-- What the secret service SDK does during one `getCurrentProductSecretValue`:
`getClient` fails, or `client.GetSecretValue` fails, or the response arrives with its
`SecretString` field (a `*string`, `none` when nil). -/
inductive SecretResp where
  | clientErr (err : String)
  | callErr (err : String)
  | value (SecretString : Option String)
deriving DecidableEq

/-- Source: `getCurrentProductSecretValue` (requester.go 35-58).  Both error branches
call `log.Fatal` before their `return`, so the process exits there and the
`return "", fmt.Errorf(...)` that follows is never reached. -/
def getCurrentProductSecretValue (_secretName : String) (_ssmAcc : SsmAccount)
    (resp : SecretResp) : Outcome (String × Option String) :=
  match resp with
  | SecretResp.clientErr _ => Outcome.exit
  | SecretResp.callErr _ => Outcome.exit
  | SecretResp.value none => Outcome.ret ("", none)
  | SecretResp.value (some s) => Outcome.ret (s, none)

/-- Source: `GetCurrentAccount` (requester.go 18-33).  `jsonUnmarshal s` is the result of
`json.Unmarshal([]byte(s), account)`: the filled account, or `none` when it returns an
error. -/
def GetCurrentAccount (jsonUnmarshal : String → Option DbAccount) (secretName : String)
    (ssmAcc : SsmAccount) (resp : SecretResp) : Outcome (Option DbAccount × Option String) :=
  match getCurrentProductSecretValue secretName ssmAcc resp with
  | Outcome.exit => Outcome.exit
  | Outcome.panic => Outcome.panic
  | Outcome.ret (_, some err) => Outcome.ret (none, some err)
  | Outcome.ret (secretValue, none) =>
    if secretValue.utf8ByteSize = 0 then
      Outcome.ret (none, some "no valid account info found because secret value is empty")
    else
      match jsonUnmarshal secretValue with
      | none => Outcome.ret (none, some "invalid secret value format")
      | some account => Outcome.ret (some account, none)

/-! ## `lib/db/dynamicSecretRotationDbConn.go`: configuration and descriptor -/

structure DbConfig where
  MaxOpenConns : Int
  MaxIdleConns : Int
  IdleTimeoutSeconds : Int
  ReadTimeoutSeconds : Int
  WriteTimeoutSeconds : Int
  SecretName : String
  IpAddress : String
  Port : Nat
  DbName : String
  ParamStr : String
deriving DecidableEq

structure Config where
  DbConfig : DbConfig
  SsmServiceConfig : SsmAccount
  WatchChangeInterval : Int
deriving DecidableEq

/-- Source: `Config.BuildConnStr` (dynamicSecretRotationDbConn.go 42-53). -/
def Config.BuildConnStr (jsonUnmarshal : String → Option DbAccount) (c : Config)
    (resp : SecretResp) : Outcome (String × Option String) :=
  match GetCurrentAccount jsonUnmarshal c.DbConfig.SecretName c.SsmServiceConfig resp with
  | Outcome.exit => Outcome.exit
  | Outcome.panic => Outcome.panic
  | Outcome.ret (_, some err) => Outcome.ret ("", some err)
  | Outcome.ret (none, none) => Outcome.panic
  | Outcome.ret (some account, none) =>
    let connStr := Sprintf "%s:%s@tcp(%s:%d)/%s"
      [Arg.str account.UserName, Arg.str account.Password, Arg.str c.DbConfig.IpAddress,
       Arg.uint c.DbConfig.Port, Arg.str c.DbConfig.DbName]
    let connStr :=
      if c.DbConfig.ParamStr.utf8ByteSize ≠ 0 then
        Sprintf "%s?%s" [Arg.str connStr, Arg.str c.DbConfig.ParamStr]
      else connStr
    Outcome.ret (connStr, none)

/-! ## `lib/db/dynamicSecretRotationDbConn.go`: the supervisor -/

/-- Source: `ConnCache`.  The `*sql.DB` in `Conn` is a handle; handles are told apart by
the order in which `sql.Open` created them (every successful `sql.Open` allocates a new
one), so a handle is the number of handles created before it. -/
structure ConnCache where
  ConnStr : String
  Conn : Nat
deriving DecidableEq

structure DynamicSecretRotationDb where
  config : Option Config
  dbConn : Option ConnCache
deriving DecidableEq

/-- One call on `database/sql` or on the `atomic.Value`, as it happened. -/
inductive Event where
  | sqlOpen (connStr : String) (h : Nat)
  | sqlOpenFailed (connStr : String)
  | setMaxOpenConns (h : Nat) (n : Int)
  | setMaxIdleConns (h : Nat) (n : Int)
  | setConnMaxLifetime (h : Nat) (d : Int)
  | ping (h : Nat) (ok : Bool)
  | store (r : ConnCache)
  | close (h : Nat) (ok : Bool)
deriving DecidableEq

/-- The supervisor together with what surrounds it: the number of handles `sql.Open` has
created, the calls made so far (oldest first), and the number of
`go d.watchSecretChange()` statements executed. -/
structure State where
  d : DynamicSecretRotationDb
  nextHandle : Nat
  trace : List Event
  loopsStarted : Nat
deriving DecidableEq

/-- The results of the external calls one `initDbConn` may make, in the order it makes
them: the secret service, `sql.Open`, `Ping` on the new handle, `Close` on the
superseded handle (`none` is a nil error). -/
structure CallOracle where
  secret : SecretResp
  openErr : Option String
  pingErr : Option String
  closeErr : Option String
deriving DecidableEq

/-- The external results of one `watchChange`: the secret service response for its own
`BuildConnStr`, then those of the `initDbConn` it may call. -/
structure TickOracle where
  secret : SecretResp
  init : CallOracle
deriving DecidableEq

/-- Multiplication of `time.Duration` values (`int64`, wrapping). -/
def wrapInt64 (x : Int) : Int := (x + 2 ^ 63) % 2 ^ 64 - 2 ^ 63

/-- A zero-valued `DynamicSecretRotationDb` in a process that has opened nothing. -/
def State.empty : State :=
  { d := { config := none, dbConn := none }, nextHandle := 0, trace := [], loopsStarted := 0 }

def State.log (s : State) (es : List Event) : State :=
  { s with trace := s.trace ++ es }

/-- Source: `GetConn` (74-80): `nil` when nothing is stored. -/
def DynamicSecretRotationDb.GetConn (d : DynamicSecretRotationDb) : Option Nat :=
  match d.dbConn with
  | some conn => some conn.Conn
  | none => none

/-- Source: `getCurrentConnStr` (82-86).  The type assertion has no `ok` form, so it
panics when nothing is stored. -/
def DynamicSecretRotationDb.getCurrentConnStr (d : DynamicSecretRotationDb) : Outcome String :=
  match d.dbConn with
  | some conn => Outcome.ret conn.ConnStr
  | none => Outcome.panic

/-- Source: `initDbConn` (88-122).  Returns the error (`none` for nil). -/
def initDbConn (jsonUnmarshal : String → Option DbAccount) (o : CallOracle) (s : State) :
    Outcome (Option String) × State :=
  match s.d.config with
  | none => (Outcome.panic, s)
  | some config =>
    match config.BuildConnStr jsonUnmarshal o.secret with
    | Outcome.exit => (Outcome.exit, s)
    | Outcome.panic => (Outcome.panic, s)
    | Outcome.ret (_, some err) => (Outcome.ret (some err), s)
    | Outcome.ret (connStr, none) =>
      match o.openErr with
      | some err =>
        (Outcome.ret (some (Sprintf "connect to cdb error: %s" [Arg.str err])),
          s.log [Event.sqlOpenFailed connStr])
      | none =>
        let tmpDbConn : Nat := s.nextHandle
        let dbConfig := config.DbConfig
        let connLifeTime := wrapInt64 (dbConfig.IdleTimeoutSeconds * 1000000000)
        let s1 : State := { s with nextHandle := s.nextHandle + 1 }
        let s2 := s1.log [Event.sqlOpen connStr tmpDbConn,
          Event.setMaxOpenConns tmpDbConn dbConfig.MaxOpenConns,
          Event.setMaxIdleConns tmpDbConn dbConfig.MaxIdleConns,
          Event.setConnMaxLifetime tmpDbConn connLifeTime]
        match o.pingErr with
        | some err =>
          (Outcome.ret (some (Sprintf "ping cdb error: %s " [Arg.str err])),
            s2.log [Event.ping tmpDbConn false])
        | none =>
          let s3 := s2.log [Event.ping tmpDbConn true]
          let curConn := s3.d.GetConn
          let rec_ : ConnCache := { ConnStr := connStr, Conn := tmpDbConn }
          let s4 : State :=
            { s3 with d := { s3.d with dbConn := some rec_ }, trace := s3.trace ++ [Event.store rec_] }
          match curConn with
          | none => (Outcome.ret none, s4)
          | some cur =>
            match o.closeErr with
            | some err => (Outcome.ret (some err), s4.log [Event.close cur false])
            | none => (Outcome.ret none, s4.log [Event.close cur true])

/-- Source: `Init` (59-68).  Returns the error (`none` for nil); on success the
`go d.watchSecretChange()` statement is counted in `loopsStarted`. -/
def Init (jsonUnmarshal : String → Option DbAccount) (config : Config) (o : CallOracle)
    (s : State) : Outcome (Option String) × State :=
  let s0 : State := { s with d := { s.d with config := some config } }
  match initDbConn jsonUnmarshal o s0 with
  | (Outcome.ret (some err), s1) => (Outcome.ret (some err), s1)
  | (Outcome.ret none, s1) => (Outcome.ret none, { s1 with loopsStarted := s1.loopsStarted + 1 })
  | (Outcome.exit, s1) => (Outcome.exit, s1)
  | (Outcome.panic, s1) => (Outcome.panic, s1)

/-- Source: `watchChange` (134-153), one tick of the rotation loop. -/
def watchChange (jsonUnmarshal : String → Option DbAccount) (o : TickOracle) (s : State) :
    Outcome Unit × State :=
  match s.d.config with
  | none => (Outcome.panic, s)
  | some config =>
    match config.BuildConnStr jsonUnmarshal o.secret with
    | Outcome.exit => (Outcome.exit, s)
    | Outcome.panic => (Outcome.panic, s)
    | Outcome.ret (_, some _) => (Outcome.ret (), s)
    | Outcome.ret (connStr, none) =>
      match s.d.getCurrentConnStr with
      | Outcome.exit => (Outcome.exit, s)
      | Outcome.panic => (Outcome.panic, s)
      | Outcome.ret cur =>
        if connStr = cur then (Outcome.ret (), s)
        else
          match initDbConn jsonUnmarshal o.init s with
          | (Outcome.ret (some _), s1) => (Outcome.ret (), s1)
          | (Outcome.ret none, s1) =>
            match s1.d.getCurrentConnStr with
            | Outcome.ret _ => (Outcome.ret (), s1)
            | Outcome.exit => (Outcome.exit, s1)
            | Outcome.panic => (Outcome.panic, s1)
          | (Outcome.exit, s1) => (Outcome.exit, s1)
          | (Outcome.panic, s1) => (Outcome.panic, s1)

/-- Source: `watchSecretChange` (124-132), for the ticks whose external results are
listed: the loop calls `watchChange` once per tick and goes on for as long as the
process lives. -/
def watchSecretChange (jsonUnmarshal : String → Option DbAccount) :
    List TickOracle → State → Outcome Unit × State
  | [], s => (Outcome.ret (), s)
  | o :: os, s =>
    match watchChange jsonUnmarshal o s with
    | (Outcome.ret (), s1) => watchSecretChange jsonUnmarshal os s1
    | (Outcome.exit, s1) => (Outcome.exit, s1)
    | (Outcome.panic, s1) => (Outcome.panic, s1)

/-- A run of the supervisor: `Init` on a fresh one and, when `Init` has started the
loop, the ticks listed. -/
def run (jsonUnmarshal : String → Option DbAccount) (config : Config) (o : CallOracle)
    (ticks : List TickOracle) : Outcome Unit × State :=
  match Init jsonUnmarshal config o State.empty with
  | (Outcome.ret none, s) => watchSecretChange jsonUnmarshal ticks s
  | (Outcome.ret (some _), s) => (Outcome.ret (), s)
  | (Outcome.exit, s) => (Outcome.exit, s)
  | (Outcome.panic, s) => (Outcome.panic, s)

/-! ## Sample inputs -/

/-- A credential payload: the JSON object with the two members `UserName` and
`Password`. -/
def samplePayload (user password : String) : String :=
  "\x7b\"UserName\":\"" ++ user ++ "\",\"Password\":\"" ++ password ++ "\"\x7d"

/-- The result of `json.Unmarshal` on the payloads used as sample inputs: the five JSON
objects listed are decoded to their two members, and the text `not json` is rejected (as
is every other text, none of which is used). -/
def sampleUnmarshal (s : String) : Option DbAccount :=
  if s = samplePayload "user1" "pass1" then some { UserName := "user1", Password := "pass1" }
  else if s = samplePayload "user1" "pass2" then some { UserName := "user1", Password := "pass2" }
  else if s = samplePayload "user1" "pass3" then some { UserName := "user1", Password := "pass3" }
  else if s = samplePayload "a:b" "c" then some { UserName := "a:b", Password := "c" }
  else if s = samplePayload "a" "b:c" then some { UserName := "a", Password := "b:c" }
  else none

def sampleSsmAccount : SsmAccount :=
  { SecretId := "SecretId", SecretKey := "SecretKey", Url := "", Region := "ap-guangzhou" }

def sampleDbConfig : DbConfig :=
  { MaxOpenConns := 100, MaxIdleConns := 50, IdleTimeoutSeconds := 100,
    ReadTimeoutSeconds := 5, WriteTimeoutSeconds := 5, SecretName := "test",
    IpAddress := "127.0.0.1", Port := 3306, DbName := "db", ParamStr := "" }

def sampleConfig : Config :=
  { DbConfig := sampleDbConfig, SsmServiceConfig := sampleSsmAccount,
    WatchChangeInterval := 10000000000 }

/-- The secret service answers with the payload of `user` and `password`. -/
def secretOf (user password : String) : SecretResp :=
  SecretResp.value (some (samplePayload user password))

/-- All external calls of an `initDbConn` succeed, the secret being `user`, `password`. -/
def allOk (user password : String) : CallOracle :=
  { secret := secretOf user password, openErr := none, pingErr := none, closeErr := none }

/-- The supervisor after a successful `Init` with the credential `user1`, `pass1`. -/
def servingState : State :=
  (Init sampleUnmarshal sampleConfig (allOk "user1" "pass1") State.empty).2

/-! ## Reading the history of calls -/

/-- The record a call stores, if it is a `Store`. -/
def Event.stored : Event → Option ConnCache
  | Event.store r => some r
  | _ => none

/-- The record the `atomic.Value` holds after the calls of `tr`: the last one stored. -/
def published (tr : List Event) : Option ConnCache :=
  (tr.filterMap Event.stored).getLast?

/-- The handle a call is about. -/
def Event.handle : Event → Option Nat
  | Event.sqlOpen _ h => some h
  | Event.sqlOpenFailed _ => none
  | Event.setMaxOpenConns h _ => some h
  | Event.setMaxIdleConns h _ => some h
  | Event.setConnMaxLifetime h _ => some h
  | Event.ping h _ => some h
  | Event.store r => some r.Conn
  | Event.close h _ => some h

/-- The call is a `Close` of handle `h` (whatever it returned). -/
def Event.isCloseOf (h : Nat) : Event → Bool
  | Event.close k _ => decide (k = h)
  | _ => false

/-- The call is a `sql.Open` (successful or not). -/
def Event.isOpen : Event → Bool
  | Event.sqlOpen _ _ => true
  | Event.sqlOpenFailed _ => true
  | _ => false

/-- The call is a `Ping`. -/
def Event.isPing : Event → Bool
  | Event.ping _ _ => true
  | _ => false

/-- The call is a `Close`. -/
def Event.isClose : Event → Bool
  | Event.close _ _ => true
  | _ => false

/-- The calls `initDbConn` makes on a new handle before it pings it. -/
def openedEvents (config : Config) (connStr : String) (h : Nat) : List Event :=
  [Event.sqlOpen connStr h,
   Event.setMaxOpenConns h config.DbConfig.MaxOpenConns,
   Event.setMaxIdleConns h config.DbConfig.MaxIdleConns,
   Event.setConnMaxLifetime h (wrapInt64 (config.DbConfig.IdleTimeoutSeconds * 1000000000))]

/-- The number a list of decimal digits stands for, continuing from `acc`. -/
def decimalValue (acc : Nat) (cs : List Char) : Nat :=
  cs.foldl (fun n c => 10 * n + (c.toNat - 48)) acc

/-- In `tr`, the handle of `r` was opened by `sql.Open` with the descriptor of `r`, then
pinged successfully, and `r` was stored after that. -/
def Validated (tr : List Event) (r : ConnCache) : Prop :=
  ∃ a b c d, tr = a ++ Event.sqlOpen r.ConnStr r.Conn ::
    (b ++ Event.ping r.Conn true :: (c ++ Event.store r :: d))

/-- The invariant of the supervisor and its history. -/
structure Inv (s : State) : Prop where
  current : s.d.dbConn = published s.trace
  fresh : ∀ e ∈ s.trace, ∀ h : Nat, e.handle = some h → h < s.nextHandle
  stored : ∀ r, Event.store r ∈ s.trace → Validated s.trace r
  opened : ∀ cs cs2 h, Event.sqlOpen cs h ∈ s.trace → Event.sqlOpen cs2 h ∈ s.trace → cs = cs2
  open_ : ∀ r, s.d.dbConn = some r → ∀ ok, Event.close r.Conn ok ∉ s.trace

/-! ## The descriptor and the credential payload -/

theorem sprintf_connStr (u p ip db : String) (port : Nat) :
    Sprintf "%s:%s@tcp(%s:%d)/%s" [Arg.str u, Arg.str p, Arg.str ip, Arg.uint port, Arg.str db]
      = u ++ ":" ++ p ++ "@tcp(" ++ ip ++ ":" ++ toString port ++ ")/" ++ db := by
  apply String.ext
  simp [Sprintf, sprintfChars]
  rfl

theorem sprintf_params (a b : String) :
    Sprintf "%s?%s" [Arg.str a, Arg.str b] = a ++ "?" ++ b := by
  apply String.ext
  simp [Sprintf, sprintfChars]


theorem utf8ByteSize_eq_zero_iff (s : String) : s.utf8ByteSize = 0 ↔ s = "" := by
  constructor
  · intro h
    apply String.ext
    cases hs : s.data with
    | nil => rfl
    | cons c cs =>
      have h1 : s = ⟨c :: cs⟩ := String.ext hs
      rw [h1] at h
      simp [String.utf8ByteSize, String.utf8ByteSize.go] at h
      have := Char.utf8Size_pos c
      omega
  · intro h
    subst h
    rfl

/-- What `BuildConnStr` returns once the account is resolved. -/
theorem BuildConnStr_of_account (unm : String → Option DbAccount) (c : Config)
    (resp : SecretResp) (a : DbAccount)
    (h : GetCurrentAccount unm c.DbConfig.SecretName c.SsmServiceConfig resp
      = Outcome.ret (some a, none)) :
    c.BuildConnStr unm resp = Outcome.ret
      (a.UserName ++ ":" ++ a.Password ++ "@tcp(" ++ c.DbConfig.IpAddress ++ ":" ++
        toString c.DbConfig.Port ++ ")/" ++ c.DbConfig.DbName ++
        (if c.DbConfig.ParamStr = "" then "" else "?" ++ c.DbConfig.ParamStr), none) := by
  unfold Config.BuildConnStr
  rw [h]
  simp only [sprintf_connStr, sprintf_params]
  by_cases hp : c.DbConfig.ParamStr = ""
  · have hz : c.DbConfig.ParamStr.utf8ByteSize = 0 := (utf8ByteSize_eq_zero_iff _).2 hp
    rw [if_neg (not_not.mpr hz), if_pos hp, String.append_empty]
  · have hz : c.DbConfig.ParamStr.utf8ByteSize ≠ 0 := fun h0 =>
      hp ((utf8ByteSize_eq_zero_iff _).1 h0)
    simp [hp, hz, String.append_assoc]

/-- A successful `BuildConnStr` has resolved an account. -/
theorem account_of_BuildConnStr (unm : String → Option DbAccount) (c : Config)
    (resp : SecretResp) (cs : String)
    (h : c.BuildConnStr unm resp = Outcome.ret (cs, none)) :
    ∃ a, GetCurrentAccount unm c.DbConfig.SecretName c.SsmServiceConfig resp
      = Outcome.ret (some a, none) := by
  unfold Config.BuildConnStr at h
  split at h
  · simp at h
  · simp at h
  · simp at h
  · simp at h
  · rename_i a heq
    exact ⟨a, heq⟩

/-! ### Decimal numerals and splitting at a separator -/

theorem digitChar_value (k : Nat) (hk : k < 10) : (Nat.digitChar k).toNat - 48 = k := by
  interval_cases k <;> rfl

theorem digitChar_ne_paren (k : Nat) (hk : k < 10) : Nat.digitChar k ≠ ')' := by
  interval_cases k <;> decide

theorem decimalValue_toDigitsCore (fuel : Nat) :
    ∀ (n : Nat) (ds : List Char), n < fuel →
      decimalValue 0 (Nat.toDigitsCore 10 fuel n ds) = decimalValue n ds := by
  induction fuel with
  | zero => intro n ds h; omega
  | succ fuel ih =>
    intro n ds h
    unfold Nat.toDigitsCore
    simp only []
    split
    · rename_i h0
      have hn : n < 10 := by omega
      simp only [decimalValue, List.foldl_cons, Nat.mul_zero, Nat.zero_add]
      rw [Nat.mod_eq_of_lt hn, digitChar_value n hn]
    · rename_i h0
      have hlt : n / 10 < fuel := by omega
      rw [ih (n / 10) _ hlt]
      simp only [decimalValue, List.foldl_cons]
      rw [digitChar_value (n % 10) (Nat.mod_lt _ (by omega))]
      congr 1
      omega

theorem repr_injective (a b : Nat) (h : Nat.repr a = Nat.repr b) : a = b := by
  have h1 : Nat.toDigits 10 a = Nat.toDigits 10 b := by
    have := congrArg String.data h
    simpa [Nat.repr, List.asString] using this
  have ha := decimalValue_toDigitsCore (a + 1) a [] (by omega)
  have hb := decimalValue_toDigitsCore (b + 1) b [] (by omega)
  unfold Nat.toDigits at h1
  rw [h1, hb] at ha
  simpa [decimalValue] using ha.symm

theorem toDigitsCore_no_paren (fuel : Nat) :
    ∀ (n : Nat) (ds : List Char), ')' ∉ ds → ')' ∉ Nat.toDigitsCore 10 fuel n ds := by
  induction fuel with
  | zero => intro n ds h; simpa [Nat.toDigitsCore] using h
  | succ fuel ih =>
    intro n ds h
    unfold Nat.toDigitsCore
    simp only []
    have hd : ')' ∉ Nat.digitChar (n % 10) :: ds := by
      simp only [List.mem_cons, not_or]
      exact ⟨fun e => digitChar_ne_paren _ (Nat.mod_lt _ (by omega)) e.symm, h⟩
    split
    · exact hd
    · exact ih _ _ hd

theorem repr_no_paren (n : Nat) : ')' ∉ (Nat.repr n).data := by
  have := toDigitsCore_no_paren (n + 1) n [] (by simp)
  simpa [Nat.repr, List.asString, Nat.toDigits] using this

/-- Two texts that agree after a separator which occurs in neither head have the same
head and the same tail. -/
theorem split_at_separator {α : Type} (c : α) :
    ∀ (a b r t : List α), c ∉ a → c ∉ b → a ++ c :: r = b ++ c :: t → a = b ∧ r = t := by
  intro a
  induction a with
  | nil =>
    intro b r t _ hb h
    cases b with
    | nil => simpa using h
    | cons x b =>
      simp only [List.nil_append, List.cons_append, List.cons.injEq] at h
      simp only [List.mem_cons, not_or] at hb
      exact absurd h.1 hb.1
  | cons x a ih =>
    intro b r t ha hb h
    simp only [List.mem_cons, not_or] at ha
    cases b with
    | nil =>
      simp only [List.nil_append, List.cons_append, List.cons.injEq] at h
      exact absurd h.1.symm ha.1
    | cons y b =>
      simp only [List.mem_cons, not_or] at hb
      simp only [List.cons_append, List.cons.injEq] at h
      obtain ⟨ha1, ha2⟩ := ih b r t ha.2 hb.2 h.2
      exact ⟨by rw [h.1, ha1], ha2⟩

theorem tail_injective (db1 db2 ps1 ps2 : String)
    (h1 : '?' ∉ db1.data) (h2 : '?' ∉ db2.data)
    (h : db1.data ++ (if ps1 = "" then "" else "?" ++ ps1).data
      = db2.data ++ (if ps2 = "" then "" else "?" ++ ps2).data) :
    db1 = db2 ∧ ps1 = ps2 := by
  have he : ("" : String).data = [] := rfl
  have hq : ("?" : String).data = ['?'] := rfl
  by_cases e1 : ps1 = "" <;> by_cases e2 : ps2 = ""
  · subst e1 e2
    simp only [if_true, he, List.append_nil] at h
    exact ⟨String.ext h, rfl⟩
  · subst e1
    simp only [if_true, he, List.append_nil, if_neg e2, String.data_append, hq] at h
    exact absurd (by rw [h]; simp) h1
  · subst e2
    simp only [if_true, he, List.append_nil, if_neg e1, String.data_append, hq] at h
    exact absurd (by rw [← h]; simp) h2
  · simp only [if_neg e1, if_neg e2, String.data_append, hq] at h
    obtain ⟨ha, hb⟩ := split_at_separator '?' db1.data db2.data ps1.data ps2.data h1 h2
      (by simpa using h)
    exact ⟨String.ext ha, String.ext hb⟩

/-- The descriptor determines its six inputs when the separators cannot be misread. -/
theorem format_injective (u1 p1 ip1 db1 ps1 u2 p2 ip2 db2 ps2 : String) (port1 port2 : Nat)
    (hu1 : ':' ∉ u1.data) (hu2 : ':' ∉ u2.data)
    (hp1 : '@' ∉ p1.data) (hp2 : '@' ∉ p2.data)
    (hi1 : ':' ∉ ip1.data) (hi2 : ':' ∉ ip2.data)
    (hd1 : '?' ∉ db1.data) (hd2 : '?' ∉ db2.data)
    (h : u1 ++ ":" ++ p1 ++ "@tcp(" ++ ip1 ++ ":" ++ toString port1 ++ ")/" ++ db1 ++
          (if ps1 = "" then "" else "?" ++ ps1)
       = u2 ++ ":" ++ p2 ++ "@tcp(" ++ ip2 ++ ":" ++ toString port2 ++ ")/" ++ db2 ++
          (if ps2 = "" then "" else "?" ++ ps2)) :
    u1 = u2 ∧ p1 = p2 ∧ ip1 = ip2 ∧ port1 = port2 ∧ db1 = db2 ∧ ps1 = ps2 := by
  have h0 := congrArg String.data h
  have e1 : (":" : String).data = [':'] := rfl
  have e2 : ("@tcp(" : String).data = ['@', 't', 'c', 'p', '('] := rfl
  have e3 : (")/" : String).data = [')', '/'] := rfl
  have e4 : ∀ n : Nat, (toString n).data = (Nat.repr n).data := fun _ => rfl
  simp only [String.data_append, e1, e2, e3, e4, List.append_assoc, List.cons_append,
    List.nil_append] at h0
  obtain ⟨hu, h1⟩ := split_at_separator ':' _ _ _ _ hu1 hu2 h0
  obtain ⟨hp, h2⟩ := split_at_separator '@' _ _ _ _ hp1 hp2 h1
  simp only [List.cons.injEq, true_and] at h2
  obtain ⟨hi, h3⟩ := split_at_separator ':' _ _ _ _ hi1 hi2 h2
  obtain ⟨hn, h4⟩ := split_at_separator ')' _ _ _ _ (repr_no_paren port1)
    (repr_no_paren port2) h3
  simp only [List.cons.injEq, true_and] at h4
  obtain ⟨hd, hps⟩ := tail_injective db1 db2 ps1 ps2 hd1 hd2 h4
  exact ⟨String.ext hu, String.ext hp, String.ext hi,
    repr_injective _ _ (String.ext hn), hd, hps⟩

theorem published_append (tr es : List Event) :
    published (tr ++ es) = (published es).or (published tr) := by
  simp [published, List.getLast?_append]

theorem published_mem (tr : List Event) (r : ConnCache) (h : published tr = some r) :
    Event.store r ∈ tr := by
  unfold published at h
  have h1 := List.mem_of_getLast?_eq_some h
  rw [List.mem_filterMap] at h1
  obtain ⟨e, he, h2⟩ := h1
  cases e <;> simp [Event.stored] at h2
  subst h2
  exact he

theorem Validated.append {tr : List Event} {r : ConnCache} (h : Validated tr r)
    (es : List Event) : Validated (tr ++ es) r := by
  obtain ⟨a, b, c, d, rfl⟩ := h
  exact ⟨a, b, c, d ++ es, by simp⟩

theorem Inv.empty : Inv State.empty := by
  constructor <;> simp [State.empty, published]


/-- Calls that store nothing, open only new handles and do not close the published
handle keep the invariant. -/
theorem Inv.log_other {s : State} (h : Inv s) (n : Nat) (hn : s.nextHandle ≤ n)
    (es : List Event)
    (hfresh : ∀ e ∈ es, ∀ k : Nat, e.handle = some k → k < n)
    (hstore : ∀ r, Event.store r ∉ es)
    (hopen : ∀ cs (k : Nat), Event.sqlOpen cs k ∈ es →
      s.nextHandle ≤ k ∧ ∀ cs2, Event.sqlOpen cs2 k ∈ es → cs = cs2)
    (hclose : ∀ r, s.d.dbConn = some r → ∀ ok, Event.close r.Conn ok ∉ es) :
    Inv { s with nextHandle := n, trace := s.trace ++ es } := by
  have hpub : published es = none := by
    unfold published
    rw [List.getLast?_eq_none_iff, List.filterMap_eq_nil_iff]
    intro e he
    cases e <;> simp [Event.stored]
    exact hstore _ he
  constructor
  · simp [published_append, hpub, h.current]
  · intro e he k hk
    simp only [List.mem_append] at he
    rcases he with he | he
    · exact lt_of_lt_of_le (h.fresh e he k hk) hn
    · exact hfresh e he k hk
  · intro r hr
    simp only [List.mem_append] at hr
    rcases hr with hr | hr
    · exact (h.stored r hr).append es
    · exact absurd hr (hstore r)
  · intro cs cs2 k h1 h2
    simp only [List.mem_append] at h1 h2
    rcases h1 with h1 | h1 <;> rcases h2 with h2 | h2
    · exact h.opened cs cs2 k h1 h2
    · have e1 := h.fresh _ h1 k rfl
      have e2 := (hopen cs2 k h2).1
      omega
    · have e1 := h.fresh _ h2 k rfl
      have e2 := (hopen cs k h1).1
      omega
    · exact (hopen cs k h1).2 cs2 h2
  · intro r hr ok hmem
    simp only [List.mem_append] at hmem
    rcases hmem with hmem | hmem
    · exact h.open_ r hr ok hmem
    · exact hclose r hr ok hmem


/-- Storing a record whose handle was opened with its descriptor and pinged, and then
possibly closing the handle that was published before, keeps the invariant. -/
theorem Inv.store_then_close {s : State} (h : Inv s) (r : ConnCache) (es : List Event)
    (hval : ∃ a b c, s.trace = a ++ Event.sqlOpen r.ConnStr r.Conn ::
      (b ++ Event.ping r.Conn true :: c))
    (hnew : ∀ ok, Event.close r.Conn ok ∉ s.trace)
    (hlt : r.Conn < s.nextHandle)
    (hes : es = [] ∨ ∃ cur ok, s.d.dbConn = some cur ∧ cur.Conn ≠ r.Conn ∧
      es = [Event.close cur.Conn ok]) :
    Inv { s with d := { s.d with dbConn := some r },
                 trace := s.trace ++ Event.store r :: es } := by
  have hpub : published (Event.store r :: es) = some r := by
    rcases hes with rfl | ⟨cur, ok, _, _, rfl⟩ <;> simp [published, Event.stored]
  have hfr : ∀ e ∈ es, ∀ k : Nat, e.handle = some k → k < s.nextHandle := by
    rcases hes with rfl | ⟨cur, ok, hc, _, rfl⟩
    · simp
    · intro e he k hk
      simp only [List.mem_singleton] at he
      subst he
      have hm := published_mem s.trace cur (by rw [← h.current, hc])
      have hlt2 := h.fresh _ hm cur.Conn rfl
      simp only [Event.handle, Option.some.injEq] at hk
      subst hk
      exact hlt2
  have hnostore : ∀ q, Event.store q ∉ es := by
    rcases hes with rfl | ⟨cur, ok, _, _, rfl⟩ <;> simp
  have hnoopen : ∀ cs k, Event.sqlOpen cs k ∉ es := by
    rcases hes with rfl | ⟨cur, ok, _, _, rfl⟩ <;> simp
  have hnoclose : ∀ ok, Event.close r.Conn ok ∉ es := by
    rcases hes with rfl | ⟨cur, ok, _, hne, rfl⟩
    · simp
    · intro ok2
      simp only [List.mem_singleton, Event.close.injEq, not_and]
      intro h1
      exact absurd h1.symm hne
  constructor
  · simp [published_append, hpub]
  · intro e he k hk
    simp only [List.mem_append, List.mem_cons] at he
    rcases he with he | he | he
    · exact h.fresh e he k hk
    · subst he
      simp only [Event.handle, Option.some.injEq] at hk
      subst hk
      exact hlt
    · exact hfr e he k hk
  · intro q hq
    simp only [List.mem_append, List.mem_cons] at hq
    rcases hq with hq | hq | hq
    · exact (h.stored q hq).append _
    · simp only [Event.store.injEq] at hq
      subst hq
      obtain ⟨a, b, c, hc⟩ := hval
      exact ⟨a, b, c, es, by simp [hc]⟩
    · exact absurd hq (hnostore q)
  · intro cs cs2 k h1 h2
    simp only [List.mem_append, List.mem_cons] at h1 h2
    rcases h1 with h1 | h1 | h1
    · rcases h2 with h2 | h2 | h2
      · exact h.opened cs cs2 k h1 h2
      · simp at h2
      · exact absurd h2 (hnoopen cs2 k)
    · simp at h1
    · exact absurd h1 (hnoopen cs k)
  · intro q hq ok hmem
    simp only [Option.some.injEq] at hq
    subst hq
    simp only [List.mem_append, List.mem_cons] at hmem
    rcases hmem with hmem | hmem | hmem
    · exact hnew ok hmem
    · simp at hmem
    · exact hnoclose ok hmem


/-- The published handle is one that `sql.Open` has already created. -/
theorem Inv.conn_lt {s : State} (h : Inv s) {r : ConnCache} (hr : s.d.dbConn = some r) :
    r.Conn < s.nextHandle :=
  h.fresh _ (published_mem s.trace r (by rw [← h.current, hr])) r.Conn rfl

/-- Opening a new handle, configuring its pool and pinging it keeps the invariant. -/
theorem Inv.open_ping {s : State} (h : Inv s) (cs : String) (a b c : Int) (ok : Bool) :
    Inv { s with nextHandle := s.nextHandle + 1,
                 trace := s.trace ++ [Event.sqlOpen cs s.nextHandle,
                   Event.setMaxOpenConns s.nextHandle a, Event.setMaxIdleConns s.nextHandle b,
                   Event.setConnMaxLifetime s.nextHandle c, Event.ping s.nextHandle ok] } := by
  apply h.log_other (s.nextHandle + 1) (by omega)
  · intro e he k hk
    simp only [List.mem_cons, List.mem_singleton, List.not_mem_nil, or_false] at he
    rcases he with rfl | rfl | rfl | rfl | rfl <;>
      simp only [Event.handle, Option.some.injEq] at hk <;> omega
  · simp
  · intro cs1 k hk
    simp only [List.mem_cons, Event.sqlOpen.injEq, List.mem_singleton, List.not_mem_nil,
      or_false, reduceCtorEq] at hk
    obtain ⟨rfl, rfl⟩ := hk
    refine ⟨le_refl _, ?_⟩
    intro cs2 h2
    simp only [List.mem_cons, Event.sqlOpen.injEq, List.mem_singleton, List.not_mem_nil,
      or_false, reduceCtorEq, and_true] at h2
    exact h2.symm
  · simp

theorem Inv.initDbConn {s : State} (h : Inv s) (unm : String → Option DbAccount)
    (o : CallOracle) : Inv (initDbConn unm o s).2 := by
  unfold SsmRotation.initDbConn
  cases hc : s.d.config with
  | none => simpa using h
  | some config =>
    simp only []
    cases hb : config.BuildConnStr unm o.secret with
    | exit => simpa using h
    | panic => simpa using h
    | ret p =>
      obtain ⟨connStr, err⟩ := p
      cases err with
      | some e => simpa using h
      | none =>
        simp only []
        cases ho : o.openErr with
        | some e =>
          simp only [State.log]
          apply h.log_other s.nextHandle (le_refl _) <;> simp [Event.handle]
        | none =>
          simp only []
          cases hp : o.pingErr with
          | some e =>
            simpa [State.log] using h.open_ping connStr config.DbConfig.MaxOpenConns
              config.DbConfig.MaxIdleConns
              (wrapInt64 (config.DbConfig.IdleTimeoutSeconds * 1000000000)) false
          | none =>
            have h3 := h.open_ping connStr config.DbConfig.MaxOpenConns
              config.DbConfig.MaxIdleConns
              (wrapInt64 (config.DbConfig.IdleTimeoutSeconds * 1000000000)) true
            have hnew : ∀ ok, Event.close s.nextHandle ok ∉ s.trace := by
              intro ok hm
              have := h.fresh _ hm s.nextHandle rfl
              omega
            simp only [DynamicSecretRotationDb.GetConn, State.log]
            cases hd : s.d.dbConn with
            | none =>
              have h4 := h3.store_then_close ⟨connStr, s.nextHandle⟩ []
                ⟨s.trace, [Event.setMaxOpenConns s.nextHandle config.DbConfig.MaxOpenConns,
                    Event.setMaxIdleConns s.nextHandle config.DbConfig.MaxIdleConns,
                    Event.setConnMaxLifetime s.nextHandle
                      (wrapInt64 (config.DbConfig.IdleTimeoutSeconds * 1000000000))], [], by simp⟩ (by simpa using hnew) (by simp) (Or.inl rfl)
              simpa using h4
            | some cur =>
              have hlt := h.conn_lt hd
              cases hcl : o.closeErr with
              | some e =>
                have h4 := h3.store_then_close ⟨connStr, s.nextHandle⟩
                  [Event.close cur.Conn false]
                  ⟨s.trace, [Event.setMaxOpenConns s.nextHandle config.DbConfig.MaxOpenConns,
                    Event.setMaxIdleConns s.nextHandle config.DbConfig.MaxIdleConns,
                    Event.setConnMaxLifetime s.nextHandle
                      (wrapInt64 (config.DbConfig.IdleTimeoutSeconds * 1000000000))], [], by simp⟩ (by simpa using hnew) (by simp)
                  (Or.inr ⟨cur, false, hd, by simp; omega, rfl⟩)
                simpa using h4
              | none =>
                have h4 := h3.store_then_close ⟨connStr, s.nextHandle⟩
                  [Event.close cur.Conn true]
                  ⟨s.trace, [Event.setMaxOpenConns s.nextHandle config.DbConfig.MaxOpenConns,
                    Event.setMaxIdleConns s.nextHandle config.DbConfig.MaxIdleConns,
                    Event.setConnMaxLifetime s.nextHandle
                      (wrapInt64 (config.DbConfig.IdleTimeoutSeconds * 1000000000))], [], by simp⟩ (by simpa using hnew) (by simp)
                  (Or.inr ⟨cur, true, hd, by simp; omega, rfl⟩)
                simpa using h4


theorem Inv.congr {s t : State} (h : Inv s) (hd : t.d.dbConn = s.d.dbConn)
    (hn : t.nextHandle = s.nextHandle) (ht : t.trace = s.trace) : Inv t := by
  constructor
  · rw [hd, ht]; exact h.current
  · rw [hn, ht]; exact h.fresh
  · rw [ht]; exact h.stored
  · rw [ht]; exact h.opened
  · rw [hd, ht]; exact h.open_

theorem Inv.watchChange {s : State} (h : Inv s) (unm : String → Option DbAccount)
    (o : TickOracle) : Inv (watchChange unm o s).2 := by
  have hi := h.initDbConn unm o.init
  unfold SsmRotation.watchChange
  split
  · exact h
  · split
    · exact h
    · exact h
    · exact h
    · split
      · exact h
      · exact h
      · split
        · exact h
        · split
          · rename_i heq; rw [heq] at hi; exact hi
          · rename_i heq; rw [heq] at hi
            split <;> exact hi
          · rename_i heq; rw [heq] at hi; exact hi
          · rename_i heq; rw [heq] at hi; exact hi

theorem Inv.Init (unm : String → Option DbAccount) (config : Config) (o : CallOracle) :
    Inv (Init unm config o State.empty).2 := by
  have h0 : Inv { State.empty with d := { State.empty.d with config := some config } } :=
    Inv.empty.congr rfl rfl rfl
  have hi := h0.initDbConn unm o
  unfold SsmRotation.Init
  simp only []
  split
  · rename_i heq; rw [heq] at hi; exact hi
  · rename_i heq; rw [heq] at hi; exact hi.congr rfl rfl rfl
  · rename_i heq; rw [heq] at hi; exact hi
  · rename_i heq; rw [heq] at hi; exact hi

theorem Inv.watchSecretChange (unm : String → Option DbAccount) (ticks : List TickOracle) :
    ∀ {s : State}, Inv s → Inv (watchSecretChange unm ticks s).2 := by
  induction ticks with
  | nil => intro s h; exact h
  | cons o os ih =>
    intro s h
    have hw := h.watchChange unm o
    unfold SsmRotation.watchSecretChange
    split
    · rename_i heq; rw [heq] at hw; exact ih hw
    · rename_i heq; rw [heq] at hw; exact hw
    · rename_i heq; rw [heq] at hw; exact hw

theorem Inv.run (unm : String → Option DbAccount) (config : Config) (o : CallOracle)
    (ticks : List TickOracle) : Inv (run unm config o ticks).2 := by
  have hi := Inv.Init unm config o
  unfold SsmRotation.run
  split
  · rename_i heq; rw [heq] at hi; exact Inv.watchSecretChange unm ticks hi
  · rename_i heq; rw [heq] at hi; exact hi
  · rename_i heq; rw [heq] at hi; exact hi
  · rename_i heq; rw [heq] at hi; exact hi


/-! ## What one call does, case by case -/

theorem initDbConn_config (unm : String → Option DbAccount) (o : CallOracle) (s : State) :
    (initDbConn unm o s).2.d.config = s.d.config := by
  unfold initDbConn
  cases hd : s.d.dbConn <;> simp only [DynamicSecretRotationDb.GetConn, State.log, hd] <;>
    (repeat' split) <;> rfl

theorem watchChange_config (unm : String → Option DbAccount) (o : TickOracle) (s : State) :
    (watchChange unm o s).2.d.config = s.d.config := by
  have hi := initDbConn_config unm o.init s
  unfold watchChange
  repeat' split
  all_goals first
    | rfl
    | simp_all

theorem watchSecretChange_config (unm : String → Option DbAccount) (ticks : List TickOracle) :
    ∀ s : State, (watchSecretChange unm ticks s).2.d.config = s.d.config := by
  induction ticks with
  | nil => intro s; rfl
  | cons o os ih =>
    intro s
    have hw := watchChange_config unm o s
    unfold watchSecretChange
    split
    · rename_i heq; rw [heq] at hw; rw [ih]; exact hw
    · rename_i heq; rw [heq] at hw; exact hw
    · rename_i heq; rw [heq] at hw; exact hw

theorem run_config (unm : String → Option DbAccount) (config : Config) (o : CallOracle)
    (ticks : List TickOracle) : (run unm config o ticks).2.d.config = some config := by
  have hi := initDbConn_config unm o
    { State.empty with d := { State.empty.d with config := some config } }
  have hI : (Init unm config o State.empty).2.d.config = some config := by
    unfold Init
    simp only []
    split <;> (rename_i heq; rw [heq] at hi; exact hi)
  unfold run
  split
  · rename_i heq; rw [heq] at hI; rw [watchSecretChange_config]; exact hI
  · rename_i heq; rw [heq] at hI; exact hI
  · rename_i heq; rw [heq] at hI; exact hI
  · rename_i heq; rw [heq] at hI; exact hI

theorem initDbConn_ping_failed (unm : String → Option DbAccount) (o : CallOracle) (s : State)
    (config : Config) (cs e : String) (hc : s.d.config = some config)
    (hb : config.BuildConnStr unm o.secret = Outcome.ret (cs, none))
    (ho : o.openErr = none) (hp : o.pingErr = some e) :
    initDbConn unm o s =
      (Outcome.ret (some (Sprintf "ping cdb error: %s " [Arg.str e])),
        { s with nextHandle := s.nextHandle + 1,
                 trace := s.trace ++ openedEvents config cs s.nextHandle ++
                   [Event.ping s.nextHandle false] }) := by
  simp [initDbConn, hc, hb, ho, hp, State.log, openedEvents]

theorem initDbConn_swapped (unm : String → Option DbAccount) (o : CallOracle) (s : State)
    (config : Config) (cs : String) (cur : ConnCache) (hc : s.d.config = some config)
    (hb : config.BuildConnStr unm o.secret = Outcome.ret (cs, none))
    (ho : o.openErr = none) (hp : o.pingErr = none) (hd : s.d.dbConn = some cur) :
    initDbConn unm o s =
      (Outcome.ret o.closeErr,
        { s with d := { s.d with dbConn := some { ConnStr := cs, Conn := s.nextHandle } },
                 nextHandle := s.nextHandle + 1,
                 trace := s.trace ++ openedEvents config cs s.nextHandle ++
                   [Event.ping s.nextHandle true,
                    Event.store { ConnStr := cs, Conn := s.nextHandle },
                    Event.close cur.Conn o.closeErr.isNone] }) := by
  cases hcl : o.closeErr <;>
    simp [initDbConn, hc, hb, ho, hp, hd, hcl, State.log, openedEvents,
      DynamicSecretRotationDb.GetConn]

theorem initDbConn_first (unm : String → Option DbAccount) (o : CallOracle) (s : State)
    (config : Config) (cs : String) (hc : s.d.config = some config)
    (hb : config.BuildConnStr unm o.secret = Outcome.ret (cs, none))
    (ho : o.openErr = none) (hp : o.pingErr = none) (hd : s.d.dbConn = none) :
    initDbConn unm o s =
      (Outcome.ret none,
        { s with d := { s.d with dbConn := some { ConnStr := cs, Conn := s.nextHandle } },
                 nextHandle := s.nextHandle + 1,
                 trace := s.trace ++ openedEvents config cs s.nextHandle ++
                   [Event.ping s.nextHandle true,
                    Event.store { ConnStr := cs, Conn := s.nextHandle }] }) := by
  simp [initDbConn, hc, hb, ho, hp, hd, State.log, openedEvents,
    DynamicSecretRotationDb.GetConn]

/-- A tick whose candidate descriptor differs from the published one ends the way its
`initDbConn` ends, in the state `initDbConn` leaves, provided `initDbConn` returns. -/
theorem watchChange_rotate (unm : String → Option DbAccount) (o : TickOracle) (s s1 : State)
    (config : Config) (cand : String) (cur : ConnCache) (err : Option String)
    (hc : s.d.config = some config)
    (hb : config.BuildConnStr unm o.secret = Outcome.ret (cand, none))
    (hd : s.d.dbConn = some cur) (hne : cand ≠ cur.ConnStr)
    (hi : initDbConn unm o.init s = (Outcome.ret err, s1))
    (hs : s1.d.dbConn ≠ none) :
    watchChange unm o s = (Outcome.ret (), s1) := by
  cases err with
  | some e =>
    simp [watchChange, hc, hb, hd, hne, hi, DynamicSecretRotationDb.getCurrentConnStr]
  | none =>
    cases h1 : s1.d.dbConn with
    | none => exact absurd h1 hs
    | some r =>
      simp [watchChange, hc, hb, hd, hne, hi, h1, DynamicSecretRotationDb.getCurrentConnStr]

/-- A tick whose candidate differs from the published descriptor and whose new handle
fails its `Ping`: the tick returns, the published record stays, and the calls of the tick
are the opening and configuration of the new handle and the failed `Ping`, nothing
else. -/
theorem watchChange_ping_failed (unm : String → Option DbAccount) (o : TickOracle)
    (s : State) (config : Config) (cand cs e : String) (cur : ConnCache)
    (hc : s.d.config = some config)
    (hb : config.BuildConnStr unm o.secret = Outcome.ret (cand, none))
    (hd : s.d.dbConn = some cur) (hne : cand ≠ cur.ConnStr)
    (hb2 : config.BuildConnStr unm o.init.secret = Outcome.ret (cs, none))
    (ho : o.init.openErr = none) (hp : o.init.pingErr = some e) :
    watchChange unm o s =
      (Outcome.ret (),
        { s with nextHandle := s.nextHandle + 1,
                 trace := s.trace ++ openedEvents config cs s.nextHandle ++
                   [Event.ping s.nextHandle false] }) :=
  watchChange_rotate unm o s _ config cand cur _ hc hb hd hne
    (initDbConn_ping_failed unm o.init s config cs e hc hb2 ho hp) (by simp [hd])

/-- `Init` on a fresh supervisor when credential resolution returns an error value. -/
theorem Init_build_error (unm : String → Option DbAccount) (config : Config)
    (o : CallOracle) (x e : String)
    (hb : config.BuildConnStr unm o.secret = Outcome.ret (x, some e)) :
    Init unm config o State.empty =
      (Outcome.ret (some e),
        { State.empty with d := { config := some config, dbConn := none } }) := by
  simp [Init, initDbConn, State.empty, hb]

/-- `Init` on a fresh supervisor when `sql.Open` fails. -/
theorem Init_open_error (unm : String → Option DbAccount) (config : Config)
    (o : CallOracle) (cs e : String)
    (hb : config.BuildConnStr unm o.secret = Outcome.ret (cs, none))
    (ho : o.openErr = some e) :
    Init unm config o State.empty =
      (Outcome.ret (some (Sprintf "connect to cdb error: %s" [Arg.str e])),
        { State.empty with d := { config := some config, dbConn := none },
                           trace := [Event.sqlOpenFailed cs] }) := by
  simp [Init, initDbConn, State.empty, State.log, hb, ho]

/-- `Init` on a fresh supervisor when the first `Ping` fails. -/
theorem Init_ping_error (unm : String → Option DbAccount) (config : Config)
    (o : CallOracle) (cs e : String)
    (hb : config.BuildConnStr unm o.secret = Outcome.ret (cs, none))
    (ho : o.openErr = none) (hp : o.pingErr = some e) :
    Init unm config o State.empty =
      (Outcome.ret (some (Sprintf "ping cdb error: %s " [Arg.str e])),
        { State.empty with d := { config := some config, dbConn := none },
                           nextHandle := 1,
                           trace := openedEvents config cs 0 ++ [Event.ping 0 false] }) := by
  simp [Init, initDbConn, State.empty, State.log, openedEvents, hb, ho, hp]

/-- `Init` on a fresh supervisor when resolution, `sql.Open` and `Ping` all succeed: it
returns nil, the pinged handle is published and one loop is started. -/
theorem Init_success (unm : String → Option DbAccount) (config : Config)
    (o : CallOracle) (cs : String)
    (hb : config.BuildConnStr unm o.secret = Outcome.ret (cs, none))
    (ho : o.openErr = none) (hp : o.pingErr = none) :
    Init unm config o State.empty =
      (Outcome.ret none,
        { d := { config := some config, dbConn := some { ConnStr := cs, Conn := 0 } },
          nextHandle := 1,
          trace := openedEvents config cs 0 ++
            [Event.ping 0 true, Event.store { ConnStr := cs, Conn := 0 }],
          loopsStarted := 1 }) := by
  simp [Init, initDbConn, State.empty, State.log, openedEvents, hb, ho, hp,
    DynamicSecretRotationDb.GetConn]

theorem countP_isCloseOf_eq_zero (h : Nat) (tr : List Event)
    (hno : ∀ ok, Event.close h ok ∉ tr) : tr.countP (Event.isCloseOf h) = 0 := by
  rw [List.countP_eq_zero]
  intro e he
  cases e <;> simp [Event.isCloseOf]
  rename_i k ok
  intro hk
  subst hk
  exact hno ok he

/-! ## The claims -/

/-- C1: in every state reached by `Init` on a fresh supervisor followed by any number of
ticks, whatever the external calls return, the record in `dbConn` is the last one stored,
and every record ever stored (so also the one in `dbConn`) holds a handle that `sql.Open`
returned for exactly the descriptor of the record and that was pinged successfully before
the `Store`; no `sql.Open` with another descriptor ever returned that handle. -/
theorem published_record_validated (unm : String → Option DbAccount) (config : Config)
    (o : CallOracle) (ticks : List TickOracle) :
    (run unm config o ticks).2.d.dbConn = published (run unm config o ticks).2.trace ∧
    (∀ r, (run unm config o ticks).2.d.dbConn = some r →
      Validated (run unm config o ticks).2.trace r ∧
      ∀ cs, Event.sqlOpen cs r.Conn ∈ (run unm config o ticks).2.trace → cs = r.ConnStr) ∧
    (∀ r, Event.store r ∈ (run unm config o ticks).2.trace →
      Validated (run unm config o ticks).2.trace r ∧
      ∀ cs, Event.sqlOpen cs r.Conn ∈ (run unm config o ticks).2.trace → cs = r.ConnStr) := by
  have hinv := Inv.run unm config o ticks
  have key : ∀ r, Event.store r ∈ (run unm config o ticks).2.trace →
      Validated (run unm config o ticks).2.trace r ∧
      ∀ cs, Event.sqlOpen cs r.Conn ∈ (run unm config o ticks).2.trace → cs = r.ConnStr := by
    intro r hr
    have hv := hinv.stored r hr
    refine ⟨hv, ?_⟩
    intro cs hcs
    obtain ⟨a, b, c, d, hd⟩ := hv
    exact hinv.opened cs r.ConnStr r.Conn hcs (by rw [hd]; simp)
  refine ⟨hinv.current, ?_, key⟩
  intro r hr
  exact key r (published_mem _ r (by rw [← hinv.current, hr]))

/-- C2 (the code at the failing input): a tick in the serving state whose candidate
descriptor differs from the published one and whose new handle (handle 1) fails its
`Ping` returns with the published record unchanged and the published handle 0 not
closed, but no `Close` of handle 1 has been called: the history of the tick ends with
the failed `Ping`. -/
theorem failed_ping_leaves_new_handle_open :
    watchChange sampleUnmarshal
      { secret := secretOf "user1" "pass2",
        init := { secret := secretOf "user1" "pass2", openErr := none,
                  pingErr := some "bad connection", closeErr := none } }
      servingState
    = (Outcome.ret (),
       { servingState with
         nextHandle := 2,
         trace := servingState.trace ++
           openedEvents sampleConfig "user1:pass2@tcp(127.0.0.1:3306)/db" 1 ++
           [Event.ping 1 false] }) ∧
    servingState.d.dbConn = some { ConnStr := "user1:pass1@tcp(127.0.0.1:3306)/db", Conn := 0 } ∧
    (∀ ok, Event.close 1 ok ∉ servingState.trace ++
      openedEvents sampleConfig "user1:pass2@tcp(127.0.0.1:3306)/db" 1 ++ [Event.ping 1 false]) := by
  decide

/-- C3 (counterexample): in the serving state the tick builds the candidate descriptor
for `user1`, `pass2`, which differs from the published one; `initDbConn` resolves the
credential again and receives `user1`, `pass3`; `sql.Open` and `Ping` succeed.  The record
published after the tick holds the descriptor for `pass3`, not the candidate. -/
theorem rotation_publishes_second_build :
    sampleConfig.BuildConnStr sampleUnmarshal (secretOf "user1" "pass2")
      = Outcome.ret ("user1:pass2@tcp(127.0.0.1:3306)/db", none) ∧
    servingState.d.dbConn = some { ConnStr := "user1:pass1@tcp(127.0.0.1:3306)/db", Conn := 0 } ∧
    (watchChange sampleUnmarshal
      { secret := secretOf "user1" "pass2", init := allOk "user1" "pass3" }
      servingState).2.d.dbConn
      = some { ConnStr := "user1:pass3@tcp(127.0.0.1:3306)/db", Conn := 1 } ∧
    (watchChange sampleUnmarshal
      { secret := secretOf "user1" "pass2", init := allOk "user1" "pass3" }
      servingState).2.d.dbConn
      ≠ some { ConnStr := "user1:pass2@tcp(127.0.0.1:3306)/db", Conn := 1 } := by
  decide

/-- C3 (amended): for every tick of a run in which the candidate descriptor built at the
start of the tick differs from the published descriptor and, inside `initDbConn`, the
second `BuildConnStr`, `sql.Open` and `Ping` succeed, `watchChange` returns and the
record published after the tick is the descriptor built inside `initDbConn` together
with the new handle; that descriptor is the candidate whenever the secret service gives
the same response to both calls.  The tick adds to the history the opening and
configuration of the new handle, its successful `Ping`, the `Store` of the new record
and then one `Close` of the previously published handle, which is the only `Close` of
that handle in the whole history. -/
theorem rotation_publishes_new_record (unm : String → Option DbAccount) (config : Config)
    (o0 : CallOracle) (ticks : List TickOracle) (o : TickOracle) (s : State)
    (cur : ConnCache) (cand cs : String)
    (hrun : run unm config o0 ticks = (Outcome.ret (), s))
    (hcur : s.d.dbConn = some cur)
    (hcand : config.BuildConnStr unm o.secret = Outcome.ret (cand, none))
    (hne : cand ≠ cur.ConnStr)
    (hcs : config.BuildConnStr unm o.init.secret = Outcome.ret (cs, none))
    (hopen : o.init.openErr = none) (hping : o.init.pingErr = none) :
    ∃ s1, watchChange unm o s = (Outcome.ret (), s1) ∧
      s1.d.dbConn = some { ConnStr := cs, Conn := s.nextHandle } ∧
      (o.init.secret = o.secret → cs = cand) ∧
      s1.trace = s.trace ++ openedEvents config cs s.nextHandle ++
        [Event.ping s.nextHandle true,
         Event.store { ConnStr := cs, Conn := s.nextHandle },
         Event.close cur.Conn o.init.closeErr.isNone] ∧
      s1.trace.countP (Event.isCloseOf cur.Conn) = 1 := by
  have hinv : Inv s := by
    have := Inv.run unm config o0 ticks
    rw [hrun] at this
    exact this
  have hc : s.d.config = some config := by
    have := run_config unm config o0 ticks
    rw [hrun] at this
    exact this
  have hi := initDbConn_swapped unm o.init s config cs cur hc hcs hopen hping hcur
  refine ⟨_, watchChange_rotate unm o s _ config cand cur _ hc hcand hcur hne hi (by simp),
    rfl, ?_, rfl, ?_⟩
  · intro heq
    rw [heq, hcand] at hcs
    simp only [Outcome.ret.injEq, Prod.mk.injEq, and_true] at hcs
    exact hcs.symm
  · have h0 := countP_isCloseOf_eq_zero cur.Conn s.trace (hinv.open_ cur hcur)
    simp [List.countP_append, h0, openedEvents, List.countP_cons, Event.isCloseOf]

/-- Witness of C3 (amended): the first tick after a successful `Init`, with the
credential rotated from `pass1` to `pass2`. -/
theorem rotation_publishes_new_record_witness :
    ∃ s1, watchChange sampleUnmarshal
        { secret := secretOf "user1" "pass2", init := allOk "user1" "pass2" } servingState
        = (Outcome.ret (), s1) ∧
      s1.d.dbConn = some { ConnStr := "user1:pass2@tcp(127.0.0.1:3306)/db", Conn := 1 } ∧
      (secretOf "user1" "pass2" = secretOf "user1" "pass2" →
        "user1:pass2@tcp(127.0.0.1:3306)/db" = "user1:pass2@tcp(127.0.0.1:3306)/db") ∧
      s1.trace = servingState.trace ++
        openedEvents sampleConfig "user1:pass2@tcp(127.0.0.1:3306)/db" 1 ++
        [Event.ping 1 true,
         Event.store { ConnStr := "user1:pass2@tcp(127.0.0.1:3306)/db", Conn := 1 },
         Event.close 0 true] ∧
      s1.trace.countP (Event.isCloseOf 0) = 1 :=
  rotation_publishes_new_record sampleUnmarshal sampleConfig (allOk "user1" "pass1") []
    { secret := secretOf "user1" "pass2", init := allOk "user1" "pass2" } servingState
    { ConnStr := "user1:pass1@tcp(127.0.0.1:3306)/db", Conn := 0 }
    "user1:pass2@tcp(127.0.0.1:3306)/db" "user1:pass2@tcp(127.0.0.1:3306)/db"
    (by decide) (by decide) (by decide) (by decide) (by decide) (by decide) (by decide)

/-- C4 (the code at the failing input): in any state of a supervisor that has a
configuration, a tick in which `getClient` or `client.GetSecretValue` returns an error
does not return: `getCurrentProductSecretValue` calls `log.Fatal` and the process exits,
so no error value reaches `watchChange` and the loop has no next tick. -/
theorem watchChange_exits_on_secret_error (unm : String → Option DbAccount)
    (d : DynamicSecretRotationDb) (config : Config) (n : Nat) (tr : List Event) (l : Nat)
    (err : String) (init : CallOracle) :
    watchChange unm { secret := SecretResp.callErr err, init := init }
        { d := { d with config := some config }, nextHandle := n, trace := tr,
          loopsStarted := l }
      = (Outcome.exit,
          { d := { d with config := some config }, nextHandle := n, trace := tr,
            loopsStarted := l }) ∧
    watchChange unm { secret := SecretResp.clientErr err, init := init }
        { d := { d with config := some config }, nextHandle := n, trace := tr,
          loopsStarted := l }
      = (Outcome.exit,
          { d := { d with config := some config }, nextHandle := n, trace := tr,
            loopsStarted := l }) ∧
    watchSecretChange unm [{ secret := SecretResp.callErr err, init := init }]
        { d := { d with config := some config }, nextHandle := n, trace := tr,
          loopsStarted := l }
      = (Outcome.exit,
          { d := { d with config := some config }, nextHandle := n, trace := tr,
            loopsStarted := l }) := by
  simp [watchSecretChange, watchChange, Config.BuildConnStr, GetCurrentAccount,
    getCurrentProductSecretValue]

/-- C7 (the code at the failing input): `Init` on a fresh supervisor in which the secret
service call of credential resolution fails does not return an error: the process exits
in `log.Fatal`. -/
theorem Init_exits_on_secret_error (unm : String → Option DbAccount) (config : Config)
    (err : String) (openErr pingErr closeErr : Option String) :
    (Init unm config
        { secret := SecretResp.callErr err, openErr := openErr, pingErr := pingErr,
          closeErr := closeErr } State.empty).1 = Outcome.exit ∧
    (Init unm config
        { secret := SecretResp.clientErr err, openErr := openErr, pingErr := pingErr,
          closeErr := closeErr } State.empty).1 = Outcome.exit := by
  simp [Init, initDbConn, Config.BuildConnStr, GetCurrentAccount,
    getCurrentProductSecretValue]

/-- C9: a tick in a state with a published record whose freshly built descriptor equals
the published descriptor returns and leaves the whole state as it was: the published
record is the same and the history has gained no call, so the numbers of `sql.Open`,
`Ping` and `Close` calls are unchanged. -/
theorem unchanged_descriptor_no_calls (unm : String → Option DbAccount) (o : TickOracle)
    (s : State) (config : Config) (cur : ConnCache)
    (hc : s.d.config = some config) (hcur : s.d.dbConn = some cur)
    (hb : config.BuildConnStr unm o.secret = Outcome.ret (cur.ConnStr, none)) :
    watchChange unm o s = (Outcome.ret (), s) ∧
    (watchChange unm o s).2.d.dbConn = some cur ∧
    (watchChange unm o s).2.trace = s.trace ∧
    (watchChange unm o s).2.trace.countP Event.isOpen = s.trace.countP Event.isOpen ∧
    (watchChange unm o s).2.trace.countP Event.isPing = s.trace.countP Event.isPing ∧
    (watchChange unm o s).2.trace.countP Event.isClose = s.trace.countP Event.isClose := by
  have h : watchChange unm o s = (Outcome.ret (), s) := by
    simp [watchChange, hc, hb, hcur, DynamicSecretRotationDb.getCurrentConnStr]
  rw [h]
  exact ⟨rfl, hcur, rfl, rfl, rfl, rfl⟩

/-- Witness of C9: the tick after a successful `Init` with the credential unchanged; the
oracle for `initDbConn` is never consulted. -/
theorem unchanged_descriptor_no_calls_witness :
    watchChange sampleUnmarshal
        { secret := secretOf "user1" "pass1", init := allOk "user1" "pass2" } servingState
      = (Outcome.ret (), servingState) ∧
    (watchChange sampleUnmarshal
        { secret := secretOf "user1" "pass1", init := allOk "user1" "pass2" }
        servingState).2.d.dbConn
      = some { ConnStr := "user1:pass1@tcp(127.0.0.1:3306)/db", Conn := 0 } ∧
    (watchChange sampleUnmarshal
        { secret := secretOf "user1" "pass1", init := allOk "user1" "pass2" }
        servingState).2.trace = servingState.trace ∧
    (watchChange sampleUnmarshal
        { secret := secretOf "user1" "pass1", init := allOk "user1" "pass2" }
        servingState).2.trace.countP Event.isOpen = servingState.trace.countP Event.isOpen ∧
    (watchChange sampleUnmarshal
        { secret := secretOf "user1" "pass1", init := allOk "user1" "pass2" }
        servingState).2.trace.countP Event.isPing = servingState.trace.countP Event.isPing ∧
    (watchChange sampleUnmarshal
        { secret := secretOf "user1" "pass1", init := allOk "user1" "pass2" }
        servingState).2.trace.countP Event.isClose = servingState.trace.countP Event.isClose :=
  unchanged_descriptor_no_calls sampleUnmarshal
    { secret := secretOf "user1" "pass1", init := allOk "user1" "pass2" } servingState
    sampleConfig { ConnStr := "user1:pass1@tcp(127.0.0.1:3306)/db", Conn := 0 }
    (by decide) (by decide) (by decide)

/-- C6: once the account `(UserName, Password)` is resolved, `BuildConnStr` succeeds and
returns exactly `UserName:Password@tcp(IpAddress:Port)/DbName`, with `Port` in decimal,
followed by `?ParamStr` when `ParamStr` is not empty and by nothing when it is empty.  The
right-hand side mentions the account and the four configuration fields only. -/
theorem descriptor_format (unm : String → Option DbAccount) (c : Config)
    (resp : SecretResp) (a : DbAccount)
    (h : GetCurrentAccount unm c.DbConfig.SecretName c.SsmServiceConfig resp
      = Outcome.ret (some a, none)) :
    c.BuildConnStr unm resp = Outcome.ret
      (a.UserName ++ ":" ++ a.Password ++ "@tcp(" ++ c.DbConfig.IpAddress ++ ":" ++
        toString c.DbConfig.Port ++ ")/" ++ c.DbConfig.DbName ++
        (if c.DbConfig.ParamStr = "" then "" else "?" ++ c.DbConfig.ParamStr), none) :=
  BuildConnStr_of_account unm c resp a h

/-- Witness of C6: `user1`, `pass1`, `127.0.0.1`, `3306`, `db` and no parameters give
`user1:pass1@tcp(127.0.0.1:3306)/db`. -/
theorem descriptor_format_witness :
    GetCurrentAccount sampleUnmarshal sampleConfig.DbConfig.SecretName
        sampleConfig.SsmServiceConfig (secretOf "user1" "pass1")
      = Outcome.ret (some { UserName := "user1", Password := "pass1" }, none) ∧
    sampleConfig.BuildConnStr sampleUnmarshal (secretOf "user1" "pass1")
      = Outcome.ret ("user1:pass1@tcp(127.0.0.1:3306)/db", none) :=
  ⟨by decide,
   (descriptor_format sampleUnmarshal sampleConfig (secretOf "user1" "pass1")
      { UserName := "user1", Password := "pass1" } (by decide)).trans (by decide)⟩

/-- C8: when the secret service call returns the payload `s` without error (`s` is empty
for a nil `SecretString`), `GetCurrentAccount` returns an error and no account exactly
when `s` is empty or `json.Unmarshal` rejects `s`.  An empty payload gives the error
`no valid account info found because secret value is empty`, a rejected one gives
`invalid secret value format`, in both cases `BuildConnStr` returns the empty descriptor
with that error, and otherwise `GetCurrentAccount` returns the decoded account. -/
theorem payload_validation (unm : String → Option DbAccount) (c : Config)
    (resp : SecretResp) (s : String)
    (hs : getCurrentProductSecretValue c.DbConfig.SecretName c.SsmServiceConfig resp
      = Outcome.ret (s, none)) :
    ((∃ e, GetCurrentAccount unm c.DbConfig.SecretName c.SsmServiceConfig resp
        = Outcome.ret (none, some e)) ↔ (s = "" ∨ unm s = none)) ∧
    (s = "" →
      GetCurrentAccount unm c.DbConfig.SecretName c.SsmServiceConfig resp
        = Outcome.ret (none, some "no valid account info found because secret value is empty") ∧
      c.BuildConnStr unm resp
        = Outcome.ret ("", some "no valid account info found because secret value is empty")) ∧
    (s ≠ "" → unm s = none →
      GetCurrentAccount unm c.DbConfig.SecretName c.SsmServiceConfig resp
        = Outcome.ret (none, some "invalid secret value format") ∧
      c.BuildConnStr unm resp = Outcome.ret ("", some "invalid secret value format")) ∧
    (∀ a, s ≠ "" → unm s = some a →
      GetCurrentAccount unm c.DbConfig.SecretName c.SsmServiceConfig resp
        = Outcome.ret (some a, none)) ∧
    getCurrentProductSecretValue c.DbConfig.SecretName c.SsmServiceConfig
      (SecretResp.value none) = Outcome.ret ("", none) := by
  have hg : GetCurrentAccount unm c.DbConfig.SecretName c.SsmServiceConfig resp =
      if s = "" then
        Outcome.ret (none, some "no valid account info found because secret value is empty")
      else match unm s with
        | none => Outcome.ret (none, some "invalid secret value format")
        | some account => Outcome.ret (some account, none) := by
    unfold GetCurrentAccount
    rw [hs]
    simp only [utf8ByteSize_eq_zero_iff]
  refine ⟨?_, ?_, ?_, ?_, rfl⟩
  · rw [hg]
    by_cases h0 : s = ""
    · simp [h0]
    · cases hu : unm s <;> simp [h0]
  · intro h0
    have h1 : GetCurrentAccount unm c.DbConfig.SecretName c.SsmServiceConfig resp
        = Outcome.ret (none, some "no valid account info found because secret value is empty") := by
      rw [hg, if_pos h0]
    refine ⟨h1, ?_⟩
    unfold Config.BuildConnStr
    rw [h1]
  · intro h0 hu
    have h1 : GetCurrentAccount unm c.DbConfig.SecretName c.SsmServiceConfig resp
        = Outcome.ret (none, some "invalid secret value format") := by
      rw [hg, if_neg h0, hu]
    refine ⟨h1, ?_⟩
    unfold Config.BuildConnStr
    rw [h1]
  · intro a h0 hu
    rw [hg, if_neg h0, hu]

/-- Witness of C8: the payload `not json` is not empty and is rejected by
`json.Unmarshal`. -/
theorem payload_validation_witness :
    getCurrentProductSecretValue sampleConfig.DbConfig.SecretName
        sampleConfig.SsmServiceConfig (SecretResp.value (some "not json"))
      = Outcome.ret ("not json", none) ∧
    GetCurrentAccount sampleUnmarshal sampleConfig.DbConfig.SecretName
        sampleConfig.SsmServiceConfig (SecretResp.value (some "not json"))
      = Outcome.ret (none, some "invalid secret value format") ∧
    sampleConfig.BuildConnStr sampleUnmarshal (SecretResp.value (some "not json"))
      = Outcome.ret ("", some "invalid secret value format") :=
  ⟨by decide,
   (payload_validation sampleUnmarshal sampleConfig (SecretResp.value (some "not json"))
      "not json" (by decide)).2.2.1 (by decide) (by decide)⟩

/-- C5 (counterexample): with the same configuration, the account with user name `a:b`
and password `c` and the account with user name `a` and password `b:c` give the same
descriptor, although the user names (and the passwords) differ. -/
theorem descriptor_collision :
    GetCurrentAccount sampleUnmarshal sampleConfig.DbConfig.SecretName
        sampleConfig.SsmServiceConfig (secretOf "a:b" "c")
      = Outcome.ret (some { UserName := "a:b", Password := "c" }, none) ∧
    GetCurrentAccount sampleUnmarshal sampleConfig.DbConfig.SecretName
        sampleConfig.SsmServiceConfig (secretOf "a" "b:c")
      = Outcome.ret (some { UserName := "a", Password := "b:c" }, none) ∧
    sampleConfig.BuildConnStr sampleUnmarshal (secretOf "a:b" "c")
      = Outcome.ret ("a:b:c@tcp(127.0.0.1:3306)/db", none) ∧
    sampleConfig.BuildConnStr sampleUnmarshal (secretOf "a" "b:c")
      = Outcome.ret ("a:b:c@tcp(127.0.0.1:3306)/db", none) ∧
    ("a:b" : String) ≠ "a" ∧ ("c" : String) ≠ "b:c" := by
  decide

/-- C5 (amended): for two successful `BuildConnStr` calls, equal inputs (user name,
password, host, port, database name, extra parameters) give equal descriptors; and equal
descriptors come from equal inputs whenever, in both calls, the user name and the host
contain no `:`, the password contains no `@` and the database name contains no `?`. -/
theorem descriptor_injective (unm : String → Option DbAccount) (c1 c2 : Config)
    (r1 r2 : SecretResp) (a1 a2 : DbAccount) (s1 s2 : String)
    (ha1 : GetCurrentAccount unm c1.DbConfig.SecretName c1.SsmServiceConfig r1
      = Outcome.ret (some a1, none))
    (ha2 : GetCurrentAccount unm c2.DbConfig.SecretName c2.SsmServiceConfig r2
      = Outcome.ret (some a2, none))
    (hb1 : c1.BuildConnStr unm r1 = Outcome.ret (s1, none))
    (hb2 : c2.BuildConnStr unm r2 = Outcome.ret (s2, none)) :
    ((a1.UserName = a2.UserName ∧ a1.Password = a2.Password ∧
        c1.DbConfig.IpAddress = c2.DbConfig.IpAddress ∧ c1.DbConfig.Port = c2.DbConfig.Port ∧
        c1.DbConfig.DbName = c2.DbConfig.DbName ∧ c1.DbConfig.ParamStr = c2.DbConfig.ParamStr) →
      s1 = s2) ∧
    (':' ∉ a1.UserName.data → ':' ∉ a2.UserName.data →
      '@' ∉ a1.Password.data → '@' ∉ a2.Password.data →
      ':' ∉ c1.DbConfig.IpAddress.data → ':' ∉ c2.DbConfig.IpAddress.data →
      '?' ∉ c1.DbConfig.DbName.data → '?' ∉ c2.DbConfig.DbName.data →
      s1 = s2 →
      a1.UserName = a2.UserName ∧ a1.Password = a2.Password ∧
        c1.DbConfig.IpAddress = c2.DbConfig.IpAddress ∧ c1.DbConfig.Port = c2.DbConfig.Port ∧
        c1.DbConfig.DbName = c2.DbConfig.DbName ∧
        c1.DbConfig.ParamStr = c2.DbConfig.ParamStr) := by
  have f1 := BuildConnStr_of_account unm c1 r1 a1 ha1
  have f2 := BuildConnStr_of_account unm c2 r2 a2 ha2
  rw [hb1] at f1
  rw [hb2] at f2
  simp only [Outcome.ret.injEq, Prod.mk.injEq, and_true] at f1 f2
  constructor
  · rintro ⟨e1, e2, e3, e4, e5, e6⟩
    rw [f1, f2, e1, e2, e3, e4, e5, e6]
  · intro hu1 hu2 hp1 hp2 hi1 hi2 hd1 hd2 heq
    rw [f1, f2] at heq
    exact format_injective _ _ _ _ _ _ _ _ _ _ _ _ hu1 hu2 hp1 hp2 hi1 hi2 hd1 hd2 heq

/-- Witness of C5 (amended): the credentials `user1`, `pass1` and `user1`, `pass2` with the
same configuration. -/
theorem descriptor_injective_witness :
    ((("user1" : String) = "user1" ∧ ("pass1" : String) = "pass2" ∧
        sampleConfig.DbConfig.IpAddress = sampleConfig.DbConfig.IpAddress ∧
        sampleConfig.DbConfig.Port = sampleConfig.DbConfig.Port ∧
        sampleConfig.DbConfig.DbName = sampleConfig.DbConfig.DbName ∧
        sampleConfig.DbConfig.ParamStr = sampleConfig.DbConfig.ParamStr) →
      ("user1:pass1@tcp(127.0.0.1:3306)/db" : String) = "user1:pass2@tcp(127.0.0.1:3306)/db") ∧
    (':' ∉ ("user1" : String).data → ':' ∉ ("user1" : String).data →
      '@' ∉ ("pass1" : String).data → '@' ∉ ("pass2" : String).data →
      ':' ∉ sampleConfig.DbConfig.IpAddress.data → ':' ∉ sampleConfig.DbConfig.IpAddress.data →
      '?' ∉ sampleConfig.DbConfig.DbName.data → '?' ∉ sampleConfig.DbConfig.DbName.data →
      ("user1:pass1@tcp(127.0.0.1:3306)/db" : String) = "user1:pass2@tcp(127.0.0.1:3306)/db" →
      ("user1" : String) = "user1" ∧ ("pass1" : String) = "pass2" ∧
        sampleConfig.DbConfig.IpAddress = sampleConfig.DbConfig.IpAddress ∧
        sampleConfig.DbConfig.Port = sampleConfig.DbConfig.Port ∧
        sampleConfig.DbConfig.DbName = sampleConfig.DbConfig.DbName ∧
        sampleConfig.DbConfig.ParamStr = sampleConfig.DbConfig.ParamStr) :=
  descriptor_injective sampleUnmarshal sampleConfig sampleConfig
    (secretOf "user1" "pass1") (secretOf "user1" "pass2")
    { UserName := "user1", Password := "pass1" } { UserName := "user1", Password := "pass2" }
    "user1:pass1@tcp(127.0.0.1:3306)/db" "user1:pass2@tcp(127.0.0.1:3306)/db"
    (by decide) (by decide) (by decide) (by decide)

end SsmRotation
